import Mathlib

/-!
Shallow embedding of the Catan board-topology core
(`src/logic/catan/src/{lib,types,ids,adjacency_list,array_vec,relations}.rs`).

Conventions of the embedding:
* Machine integers (`u8` coordinates, `u8`/`u16` IDs) are modelled as `Nat`.
  Coordinate arithmetic in `neighbor_positions` is modelled with wrapping
  (`% 256`) semantics, matching release-mode Rust (`x - 1` on `u8`); all
  claim-relevant inputs stay far away from the wrap boundary except where a
  claim is precisely about boundary behaviour.
* Fallible operations (slice indexing, `assert!`, `try_into().unwrap()`)
  return `Option`; a `none` is a Rust panic.
* `EnumMap<K, V>` values are association lists over the full key list in the
  Rust enum's declaration order (the order in which `enum_map`'s `map`
  visits keys, which matters because the traversal's closures thread
  mutable state through that iteration).
* `AdjacencyList<K, V>` is a plain list; `push` assigns the key
  `values.len()` (the Rust `try_into().unwrap()` to the `u8`/`u16` ID width
  is modelled only where a claim can reach it, namely `derive_2d_map`'s
  `TileID` conversion).
-/

namespace Catan

/-- The six sides of a hexagonal tile, in the source enum's declaration
order (`types.rs`): NorthWest, NorthEast, West, East, SouthWest, SouthEast. -/
inductive HexSide where
  | NorthWest
  | NorthEast
  | West
  | East
  | SouthWest
  | SouthEast
deriving DecidableEq, Repr

/-- The six vertices of a hexagonal tile, in the source enum's declaration
order (`types.rs`): North, NorthWest, NorthEast, SouthWest, SouthEast, South. -/
inductive HexVertex where
  | North
  | NorthWest
  | NorthEast
  | SouthWest
  | SouthEast
  | South
deriving DecidableEq, Repr

/-- All sides in declaration order, the order `EnumMap` iterates. -/
def HexSide.all : List HexSide :=
  [.NorthWest, .NorthEast, .West, .East, .SouthWest, .SouthEast]

/-- All vertices in declaration order, the order `EnumMap` iterates. -/
def HexVertex.all : List HexVertex :=
  [.North, .NorthWest, .NorthEast, .SouthWest, .SouthEast, .South]

/-- `HexSide::opposite` from `types.rs`. -/
def HexSide.opposite : HexSide → HexSide
  | .NorthWest => .SouthEast
  | .NorthEast => .SouthWest
  | .West => .East
  | .East => .West
  | .SouthWest => .NorthEast
  | .SouthEast => .NorthWest

/-- `HexSide::connected_vertices` from `types.rs`: the two vertices bounding
a side, in the source's fixed order. -/
def HexSide.connected_vertices : HexSide → HexVertex × HexVertex
  | .NorthWest => (.NorthWest, .North)
  | .NorthEast => (.North, .NorthEast)
  | .East => (.NorthEast, .SouthEast)
  | .SouthEast => (.SouthEast, .South)
  | .SouthWest => (.South, .SouthWest)
  | .West => (.SouthWest, .NorthWest)

/-- `settle_places_lookup` from `lib.rs`: for each vertex, the two
(neighboring side, neighbor-local vertex) pairs that may already carry the
same physical corner's ID. -/
def settle_places_lookup : HexVertex → (HexSide × HexVertex) × (HexSide × HexVertex)
  | .North => ((.NorthWest, .SouthEast), (.NorthEast, .SouthEast))
  | .NorthEast => ((.NorthEast, .South), (.East, .NorthWest))
  | .SouthEast => ((.East, .SouthWest), (.SouthEast, .North))
  | .South => ((.SouthEast, .SouthWest), (.SouthWest, .North))
  | .SouthWest => ((.SouthWest, .North), (.West, .SouthEast))
  | .NorthWest => ((.West, .NorthEast), (.NorthWest, .South))

/-- Wrapping `u8` decrement: release-mode semantics of `x - 1` on `u8`. -/
def wsub1 (n : Nat) : Nat := (n + 255) % 256

/-- Wrapping `u8` increment: release-mode semantics of `x + 1` on `u8`. -/
def wadd1 (n : Nat) : Nat := (n + 1) % 256

/-- `neighbor_positions` from `lib.rs`: the neighboring cell coordinate at
each side, with the even-row/odd-row horizontal offset scheme. -/
def neighbor_positions (p : Nat × Nat) : HexSide → Nat × Nat :=
  fun s =>
    if p.2 % 2 = 0 then
      match s with
      | .NorthWest => (wsub1 p.1, wsub1 p.2)
      | .NorthEast => (p.1, wsub1 p.2)
      | .West => (wsub1 p.1, p.2)
      | .East => (wadd1 p.1, p.2)
      | .SouthWest => (wsub1 p.1, wadd1 p.2)
      | .SouthEast => (p.1, wadd1 p.2)
    else
      match s with
      | .NorthWest => (p.1, wsub1 p.2)
      | .NorthEast => (wadd1 p.1, wsub1 p.2)
      | .West => (wsub1 p.1, p.2)
      | .East => (wadd1 p.1, p.2)
      | .SouthWest => (p.1, wadd1 p.2)
      | .SouthEast => (wadd1 p.1, wadd1 p.2)

/-- The `Matrix<Option<TileID>>` of `lib.rs`: a row-major vector indexed by
`x + y * width`. -/
structure Matrix where
  width : Nat
  data : List (Option Nat)
deriving DecidableEq, Repr

/-- `Matrix::index` (`lib.rs`): the cell at `x + y * width`. The outer
`none` is the Rust out-of-bounds panic of `self.data[...]`; the source
performs no `x < width` check, so the flat index may silently land in a
later row. -/
def Matrix.get (m : Matrix) (p : Nat × Nat) : Option (Option Nat) :=
  m.data[p.1 + p.2 * m.width]?

/-- Write one placement into the 2D map, with `Matrix::index_mut`'s
out-of-bounds panic as `none`. -/
def Matrix.setCell (m : Matrix) (p : Nat × Nat) (v : Nat) : Option Matrix :=
  let i := p.1 + p.2 * m.width
  if i < m.data.length then some ⟨m.width, m.data.set i (some v)⟩ else none

/-- The placement-writing loop of `derive_2d_map`: `idx` is the running
`TileID`; the `idx ≤ 255` guard is the `idx.try_into::<u8>().unwrap()`
panic. -/
def fill_map : List (Nat × Nat) → Nat → Matrix → Option Matrix
  | [], _, m => some m
  | p :: rest, idx, m =>
    if idx ≤ 255 then
      match m.setCell p idx with
      | none => none
      | some m' => fill_map rest (idx + 1) m'
    else
      none

/-- `derive_2d_map` from `lib.rs`: a dense width×height grid of
`Option TileID`, written from the placement list (index = TileID). -/
def derive_2d_map (map_size : Nat × Nat) (tile_placement : List (Nat × Nat)) : Option Matrix :=
  fill_map tile_placement 0 ⟨map_size.1, List.replicate (map_size.1 * map_size.2) none⟩

/-- `VisitStatus` from `lib.rs`. -/
inductive VisitStatus where
  | Processed (id : Nat)
  | NotVisited (id : Nat) (pos : Nat × Nat)
  | NotATile
deriving DecidableEq, Repr

/-- `VisitStatus::not_visited` from `lib.rs`. -/
def VisitStatus.not_visited : VisitStatus → Option (Nat × (Nat × Nat))
  | .NotVisited id pos => some (id, pos)
  | _ => none

/-- Classify one neighboring cell, as in the `neighbor_positions(pos).map`
closure of `traverse_tiles`: grid miss (panic) propagates as `none`. -/
def classify_side (m : Matrix) (processed : List Nat) (np : Nat × Nat) : Option VisitStatus :=
  match m.get np with
  | none => none
  | some none => some .NotATile
  | some (some tid) =>
    if processed.contains tid then some (.Processed tid) else some (.NotVisited tid np)

/-- The full `neighbor_status` map of `traverse_tiles`, one classification
per side (evaluated for all six sides; any grid-indexing panic is `none`). -/
def neighbor_status (m : Matrix) (processed : List Nat) (pos : Nat × Nat) :
    Option (HexSide → VisitStatus) :=
  match classify_side m processed (neighbor_positions pos .NorthWest),
      classify_side m processed (neighbor_positions pos .NorthEast),
      classify_side m processed (neighbor_positions pos .West),
      classify_side m processed (neighbor_positions pos .East),
      classify_side m processed (neighbor_positions pos .SouthWest),
      classify_side m processed (neighbor_positions pos .SouthEast) with
  | some a, some b, some c, some d, some e, some f =>
    some fun s =>
      match s with
      | .NorthWest => a
      | .NorthEast => b
      | .West => c
      | .East => d
      | .SouthWest => e
      | .SouthEast => f
  | _, _, _, _, _, _ => none

/-- A tile's vertex → SettlePlaceID table (`EnumMap<HexVertex, SettlePlaceID>`),
as an association list over `HexVertex.all`. -/
abbrev VertexMap := List (HexVertex × Nat)

/-- A tile's side → RoadID table (`EnumMap<HexSide, RoadID>`), as an
association list over `HexSide.all`. -/
abbrev SideMap := List (HexSide × Nat)

/-- Total lookup in a vertex table. Tables built by the traversal always
contain every vertex, so the default is never consulted. -/
def vlookup : VertexMap → HexVertex → Nat
  | [], _ => 0
  | (v', id) :: rest, v => if v' = v then id else vlookup rest v

/-- Total lookup in a side table. Tables built by the traversal always
contain every side, so the default is never consulted. -/
def slookup : SideMap → HexSide → Nat
  | [], _ => 0
  | (s', id) :: rest, s => if s' = s then id else slookup rest s

/-- One step of the `settle_places_lookup().map` closure in
`traverse_tiles`: copy the corner's ID from the first Processed neighbor of
the two candidate (side, vertex) pairs, else mint a fresh ID from the
monotonic counter. `tsp.get? nid` is the `tile_settle_places[neighbor_id]`
indexing, whose out-of-range panic is `none`. -/
def vertex_id (ns : HexSide → VisitStatus) (tsp : List VertexMap) (count : Nat)
    (v : HexVertex) : Option (Nat × Nat) :=
  let a := (settle_places_lookup v).1
  let b := (settle_places_lookup v).2
  match ns a.1 with
  | .Processed nid => tsp[nid]?.map fun mp => (vlookup mp a.2, count)
  | _ =>
    match ns b.1 with
    | .Processed nid => tsp[nid]?.map fun mp => (vlookup mp b.2, count)
    | _ => some (count, count + 1)

/-- The `settle_places` computation of `traverse_tiles`: `EnumMap::map`
iterating all vertices in declaration order, threading the settle-place
counter through the closure. -/
def settle_fold (ns : HexSide → VisitStatus) (tsp : List VertexMap) :
    List HexVertex → Nat → Option (VertexMap × Nat)
  | [], count => some ([], count)
  | v :: vs, count =>
    match vertex_id ns tsp count v with
    | none => none
    | some (id, count') =>
      match settle_fold ns tsp vs count' with
      | none => none
      | some (rest, count'') => some ((v, id) :: rest, count'')

/-- One step of the `roads` closure in `traverse_tiles`: copy the Processed
neighbor's road at the opposite side, else push a fresh road whose two
endpoints are this side's connected vertices in the just-computed
settle-place table. `troads.get? nid` is the `tile_roads[id]` indexing. -/
def road_id (ns : HexSide → VisitStatus) (troads : List SideMap) (sp : VertexMap)
    (rsp : List (Nat × Nat)) (s : HexSide) : Option (Nat × List (Nat × Nat)) :=
  match ns s with
  | .Processed nid => troads[nid]?.map fun mp => (slookup mp s.opposite, rsp)
  | _ =>
    let cv := s.connected_vertices
    some (rsp.length, rsp ++ [(vlookup sp cv.1, vlookup sp cv.2)])

/-- The `roads` computation of `traverse_tiles`: `EnumMap::map` iterating
all sides in declaration order, threading `road_settle_places` through the
closure. -/
def road_fold (ns : HexSide → VisitStatus) (troads : List SideMap) (sp : VertexMap) :
    List HexSide → List (Nat × Nat) → Option (SideMap × List (Nat × Nat))
  | [], rsp => some ([], rsp)
  | s :: ss, rsp =>
    match road_id ns troads sp rsp s with
    | none => none
    | some (id, rsp') =>
      match road_fold ns troads sp ss rsp' with
      | none => none
      | some (rest, rsp'') => some ((s, id) :: rest, rsp'')

/-- `TileTraversalResult` from `lib.rs`. -/
structure TileTraversalResult where
  tile_settle_places : List VertexMap
  tile_roads : List SideMap
  road_settle_places : List (Nat × Nat)
  settle_places_count : Nat
deriving DecidableEq, Repr

/-- Outcome of the traversal: a result, a Rust panic (`fault`), or fuel
exhaustion of the embedding's bounded recursion (never observed for the
fuel budget `traverse_tiles` supplies). -/
inductive TravResult where
  | ok (r : TileTraversalResult)
  | fault
  | fuel_out
deriving DecidableEq, Repr

/-- Project a successful traversal result. -/
def TravResult.ok? : TravResult → Option TileTraversalResult
  | .ok r => some r
  | _ => none

/-- The `while let Some((tile_id, pos)) = queue.pop_front()` loop of
`traverse_tiles`, as fuel-bounded recursion over the explicit state
(queue, processed set, settle-place counter, three relation tables). -/
def traverse_loop (m : Matrix) : Nat → List (Nat × (Nat × Nat)) → List Nat → Nat →
    List VertexMap → List SideMap → List (Nat × Nat) → TravResult
  | 0, _, _, _, _, _, _ => .fuel_out
  | _ + 1, [], _, count, tsp, troads, rsp => .ok ⟨tsp, troads, rsp, count⟩
  | fuel + 1, (tid, pos) :: rest, processed, count, tsp, troads, rsp =>
    if processed.contains tid then
      traverse_loop m fuel rest processed count tsp troads rsp
    else
      let processed' := tid :: processed
      match neighbor_status m processed' pos with
      | none => .fault
      | some ns =>
        match settle_fold ns tsp HexVertex.all count with
        | none => .fault
        | some (spMap, count') =>
          match road_fold ns troads spMap HexSide.all rsp with
          | none => .fault
          | some (roadMap, rsp') =>
            traverse_loop m fuel
              (rest ++ HexSide.all.filterMap fun s => (ns s).not_visited)
              processed' count' (tsp ++ [spMap]) (troads ++ [roadMap]) rsp'

/-- `traverse_tiles` from `lib.rs`: seed the queue with
`(TileID(0), tile_placement[0])` (panics on an empty placement list), build
the 2D placement grid, then run the BFS loop. The fuel bound exceeds the
maximum possible number of queue pops (one seed plus at most six enqueues
per processed tile, at most one processing per tile). -/
def traverse_tiles (map_size : Nat × Nat) (tile_placement : List (Nat × Nat)) : TravResult :=
  match tile_placement[0]? with
  | none => .fault
  | some pos0 =>
    match derive_2d_map map_size tile_placement with
    | none => .fault
    | some m =>
      traverse_loop m (7 * (tile_placement.length + 1) + 1) [(0, pos0)] [] 0 [] [] []

/-- `ArrayVec<T, N>` from `array_vec.rs`: the observable state is the
initialized prefix (`as_ref`), a list of length at most `N`. -/
structure ArrayVec (α : Type) (N : Nat) where
  data : List α
  hsize : data.length ≤ N

/-- `ArrayVec::new`. -/
def ArrayVec.empty (α : Type) (N : Nat) : ArrayVec α N :=
  ⟨[], by simp⟩

/-- `ArrayVec::push` from `array_vec.rs`: appends when under capacity; the
`assert!(self.size < N)` failure is `none`. -/
def ArrayVec.push {α : Type} {N : Nat} (av : ArrayVec α N) (v : α) : Option (ArrayVec α N) :=
  if h : av.data.length < N then
    some ⟨av.data ++ [v], by simpa using h⟩
  else
    none

/-- The `for (road, [a, b]) in road_settle_places` loop of
`derive_settle_place_roads_relations`: `road` is the running index the
`AdjacencyList` iterator yields; both indexings and both capacity-3 pushes
can panic (`none`). -/
def invert_fold : List (Nat × Nat) → Nat → List (ArrayVec Nat 3) → Option (List (ArrayVec Nat 3))
  | [], _, acc => some acc
  | (a, b) :: rest, road, acc =>
    match acc[a]? with
    | none => none
    | some ava =>
      match ava.push road with
      | none => none
      | some ava' =>
        let acc' := acc.set a ava'
        match acc'[b]? with
        | none => none
        | some avb =>
          match avb.push road with
          | none => none
          | some avb' => invert_fold rest (road + 1) (acc'.set b avb')

/-- `derive_settle_place_roads_relations` from `lib.rs`: invert
road → endpoints into settle-place → incident roads, starting from
`settle_places_count` empty capacity-3 collections. -/
def derive_settle_place_roads_relations (road_settle_places : List (Nat × Nat))
    (settle_places_count : Nat) : Option (List (ArrayVec Nat 3)) :=
  invert_fold road_settle_places 0 (List.replicate settle_places_count (ArrayVec.empty Nat 3))

/-- `TileTerrain` from `types.rs`. -/
inductive TileTerrain where
  | Field
  | Pasture
  | Forest
  | Mesa
  | Mountains
  | Desert
deriving DecidableEq, Repr

/-- `DecodeConfigError` from `lib.rs`. -/
inductive DecodeConfigError where
  | InvalidPlayerCount (pc : Nat)
deriving DecidableEq, Repr

/-- `MapConfig` from `lib.rs`, restricted to the fields `decode_config`
reads on its topology path (`tile_bank`, `fixed_tiles`, harbour fields are
parsed but unused by the modelled code path). -/
structure MapConfig where
  map_size : Nat × Nat
  tile_placement : List (Nat × Nat)
  default_tiles : List TileTerrain

/-- `TileEntities` from `relations.rs`. -/
structure TileEntities where
  resource : List TileTerrain
  roads : List SideMap
  settle_places : List VertexMap

/-- `RoadEntities` from `relations.rs`. -/
structure RoadEntities where
  settle_places : List (Nat × Nat)

/-- `SettlePlaceEntities` from `relations.rs`. -/
structure SettlePlaceEntities where
  roads : List (ArrayVec Nat 3)

/-- `GameState` from `relations.rs` (the `player` field, defaulted empty in
the source, carries no topology and is omitted). -/
structure GameState where
  tile : TileEntities
  road : RoadEntities
  settle_place : SettlePlaceEntities

/-- `decode_config` from `lib.rs`: reject player counts outside `2..=4`
with a typed error before any topology work; otherwise build the topology.
The outer `Option`'s `none` is a panic inside the construction. -/
def decode_config (config : MapConfig) (player_count : Nat) :
    Option (Except DecodeConfigError GameState) :=
  if player_count < 2 ∨ 4 < player_count then
    some (.error (.InvalidPlayerCount player_count))
  else
    match traverse_tiles config.map_size config.tile_placement with
    | .ok r =>
      match derive_settle_place_roads_relations r.road_settle_places r.settle_places_count with
      | none => none
      | some spr =>
        some (.ok ⟨⟨config.default_tiles, r.tile_roads, r.tile_settle_places⟩,
          ⟨r.road_settle_places⟩, ⟨spr⟩⟩)
    | _ => none

/-- A concrete `ArrayVec Nat 2` holding one element (below capacity). -/
def avUnder : ArrayVec Nat 2 := ⟨[5], by simp⟩

/-- A concrete `ArrayVec Nat 2` at capacity. -/
def avFull : ArrayVec Nat 2 := ⟨[5, 7], by simp⟩

/-- The settle-place → roads table the inversion computes for a single road
between settle places 0 and 1. -/
def c6Table : List (ArrayVec Nat 3) :=
  (derive_settle_place_roads_relations [(0, 1)] 2).getD []

/-- The traversal result for a single tile at (1,1) on a 3×3 grid. -/
def oneTileResult : TileTraversalResult :=
  (traverse_tiles (3, 3) [(1, 1)]).ok?.getD ⟨[], [], [], 0⟩

/-- Index-preserving extension between two settle-place → roads tables:
every collection of the first is contained, elementwise, in the
corresponding collection of the second. -/
def TableExtends (acc res : List (ArrayVec Nat 3)) : Prop :=
  ∀ (i : Nat) (av : ArrayVec Nat 3), acc[i]? = some av →
    ∃ av', res[i]? = some av' ∧ ∀ x ∈ av.data, x ∈ av'.data

/-- No settle-place ID below the counter is missing from the per-tile
vertex tables: density of settle-place IDs. -/
def SPInv (tsp : List VertexMap) (count : Nat) : Prop :=
  ∀ id, id < count → ∃ mp ∈ tsp, ∃ v, (v, id) ∈ mp

/-- No road ID below the road-table length is missing from the per-tile
side tables: density of road IDs. -/
def RInv (troads : List SideMap) (rsp : List (Nat × Nat)) : Prop :=
  ∀ rid, rid < rsp.length → ∃ mp ∈ troads, ∃ s, (s, rid) ∈ mp

/-! ## Supporting lemmas -/

/-- Whatever `ArrayVec.push` returns successfully is the old contents with
the new value appended. -/
theorem ArrayVec.push_data {α : Type} {N : Nat} {av av' : ArrayVec α N} {v : α}
    (h : av.push v = some av') : av'.data = av.data ++ [v] := by
  unfold ArrayVec.push at h
  split at h
  · cases h
    rfl
  · cases h

/-- An empty placement list makes `traverse_tiles` fault at the seed
indexing `tile_placement[0]`, whatever the map size. -/
theorem traverse_tiles_nil (ms : Nat × Nat) : traverse_tiles ms [] = .fault := rfl

/-! ## C1 -/

/-- C1: for the valid input map_size = (4,4),
tile_placement = [(1,1),(2,2),(2,1)] (non-overlapping, in bounds, all tiles
side-adjacent to tile 0), BFS pops tiles in the order 0, 2, 1, so TileID 2's
tables are appended at table position 1; when tile 1 is then processed, its
Processed-neighbor lookup `tile_settle_places[TileID 2]` indexes position 2
of a table of length 2 and panics. The relation tables are therefore NOT
appended in ascending TileID order on every valid input, and
Processed-neighbor lookups do not always read the neighbor's own data. -/
theorem C1_misordered_bfs_faults :
    traverse_tiles (4, 4) [(1, 1), (2, 2), (2, 1)] = .fault := by
  rfl

/-! ## C2 -/

/-- C2: for the valid input map_size = (6,5),
tile_placement = [(3,2),(4,2),(2,2),(1,2)], BFS processes tiles in the
order 0, 2, 1, 3 (table positions 0, 1, 2, 3 hold the data of TileIDs
0, 2, 1, 3 respectively). TileID 3 at (1,2) and TileID 2 at (2,2) are
adjacent via tile 3's East side; tile 3's NorthEast vertex and tile 2's
NorthWest vertex are the same physical corner, yet the traversal completes
and assigns them two different SettlePlaceIDs (2 and 7), because tile 3's
lookup `tile_settle_places[TileID 2]` silently reads position 2, which
holds TileID 1's data. -/
theorem C2_shared_corner_gets_two_ids :
    ((traverse_tiles (6, 5) [(3, 2), (4, 2), (2, 2), (1, 2)]).ok?.map fun r =>
      (vlookup (r.tile_settle_places.getD 3 []) .NorthEast,
       vlookup (r.tile_settle_places.getD 1 []) .NorthWest)) = some (2, 7) ∧
    (2 : Nat) ≠ 7 := by
  exact ⟨rfl, by decide⟩

/-! ## C3 -/

/-- C3: on a 3×3 grid with tiles at (2,1) and (0,2), the East neighbor of
tile position (2,1) is (3,1), which lies outside the declared bounds
(x = 3 ≥ width = 3); the Placement Grid lookup linearizes it to flat index
3 + 1·3 = 6 = 0 + 2·3 and resolves it to the tile at (0,2) (TileID 1)
instead of "no tile". The SouthEast neighbor (3,2) linearizes to flat
index 9, out of range of the 9-cell vector, and the lookup faults (Rust
index panic) instead of yielding "no tile". -/
theorem C3_out_of_bounds_lookup_misresolves :
    neighbor_positions (2, 1) .East = (3, 1) ∧
    neighbor_positions (2, 1) .SouthEast = (3, 2) ∧
    ((derive_2d_map (3, 3) [(2, 1), (0, 2)]).map fun m =>
      (m.get (3, 1), m.get (3, 2))) = some (some (some 1), none) := by
  exact ⟨rfl, rfl, rfl⟩

/-! ## C4 -/

/-- C4: for map_size = (4,4) and tile_placement = [(1,1),(2,1),(2,2)], the
topology construction produces exactly 13 settle places and exactly 15
roads, and tile 1's NorthWest vertex entry and tile 0's NorthEast vertex
entry are the same SettlePlaceID (both 2). -/
theorem C4_three_tile_scenario :
    ((traverse_tiles (4, 4) [(1, 1), (2, 1), (2, 2)]).ok?.map fun r =>
      (r.settle_places_count, r.road_settle_places.length,
       vlookup (r.tile_settle_places.getD 1 []) .NorthWest,
       vlookup (r.tile_settle_places.getD 0 []) .NorthEast)) =
      some (13, 15, 2, 2) := by
  rfl

/-! ## C7 -/

/-- C7: an `ArrayVec` holding `k` elements appends the pushed value (it
becomes readable at the end of the initialized prefix) exactly when
`k < N`; a push at `k = N` fails fatally via the assertion; a push never
silently truncates or drops the value. -/
theorem C7_push_appends_or_faults {α : Type} {N : Nat} (av : ArrayVec α N) (v : α) :
    (av.data.length < N → ∃ av', av.push v = some av' ∧ av'.data = av.data ++ [v]) ∧
    (av.data.length = N → av.push v = none) := by
  constructor
  · intro h
    refine ⟨⟨av.data ++ [v], by simpa using h⟩, ?_, rfl⟩
    unfold ArrayVec.push
    rw [dif_pos h]
  · intro h
    unfold ArrayVec.push
    rw [dif_neg (by omega)]

/-- Witness for C7 at concrete inputs: pushing onto a one-element capacity-2
vector appends; pushing onto a full one fails. -/
theorem C7_push_appends_or_faults_witness :
    (∃ av', avUnder.push 9 = some av' ∧ av'.data = [5] ++ [9]) ∧ avFull.push 9 = none := by
  exact ⟨(C7_push_appends_or_faults avUnder 9).1 (by simp [avUnder]),
    (C7_push_appends_or_faults avFull 9).2 (by simp [avFull])⟩

/-! ## C8 -/

/-- C8: for every map configuration, a player count outside [2,4] is
rejected with the typed error `InvalidPlayerCount` before any topology
construction runs (the result is the typed error even for configurations
whose construction would crash), and a player count within [2,4] never
yields that error. -/
theorem C8_player_count_check (config : MapConfig) (pc : Nat) :
    (¬(2 ≤ pc ∧ pc ≤ 4) →
      decode_config config pc = some (.error (.InvalidPlayerCount pc))) ∧
    ((2 ≤ pc ∧ pc ≤ 4) →
      decode_config config pc ≠ some (.error (.InvalidPlayerCount pc))) := by
  constructor
  · intro h
    unfold decode_config
    rw [if_pos (by omega)]
  · intro h
    unfold decode_config
    rw [if_neg (by omega)]
    cases traverse_tiles config.map_size config.tile_placement with
    | ok r =>
      cases hd : derive_settle_place_roads_relations r.road_settle_places r.settle_places_count with
      | none => simp [hd]
      | some spr => simp [hd]
    | fault => simp
    | fuel_out => simp

/-- Witness for C8: player count 5 on a crash-prone (empty-placement)
configuration still gets the typed error; player count 2 on a one-tile
configuration does not get it. -/
theorem C8_player_count_check_witness :
    decode_config ⟨(3, 3), [], []⟩ 5 =
      some (.error (.InvalidPlayerCount 5)) ∧
    decode_config ⟨(3, 3), [(1, 1)], [.Desert]⟩ 2 ≠
      some (.error (.InvalidPlayerCount 2)) := by
  exact ⟨(C8_player_count_check ⟨(3, 3), [], []⟩ 5).1 (by omega),
    (C8_player_count_check ⟨(3, 3), [(1, 1)], [.Desert]⟩ 2).2 (by omega)⟩

/-! ## C9 -/

/-- C9: the topology construction is a pure function of the map size and
placement list — any two runs on equal inputs produce identical outputs,
for `traverse_tiles` and hence for `decode_config`. (The source's only
hash-based container is used for membership tests alone, never iterated,
so the Rust construction admits this functional embedding.) -/
theorem C9_deterministic (ms ms' : Nat × Nat) (tp tp' : List (Nat × Nat))
    (config config' : MapConfig) (pc pc' : Nat)
    (hms : ms = ms') (htp : tp = tp') (hc : config = config') (hp : pc = pc') :
    traverse_tiles ms tp = traverse_tiles ms' tp' ∧
    decode_config config pc = decode_config config' pc' := by
  subst hms htp hc hp
  exact ⟨rfl, rfl⟩

/-- Witness for C9 at concrete equal inputs. -/
theorem C9_deterministic_witness :
    traverse_tiles (4, 4) [(1, 1)] = traverse_tiles (4, 4) [(1, 1)] ∧
    decode_config ⟨(3, 3), [(1, 1)], [.Desert]⟩ 2 =
      decode_config ⟨(3, 3), [(1, 1)], [.Desert]⟩ 2 := by
  exact C9_deterministic (4, 4) (4, 4) [(1, 1)] [(1, 1)]
    ⟨(3, 3), [(1, 1)], [.Desert]⟩ ⟨(3, 3), [(1, 1)], [.Desert]⟩ 2 2 rfl rfl rfl rfl

/-! ## C10 -/

/-- C10: an empty placement list makes the construction fault at the seed
indexing `tile_placement[0]` (so `decode_config` with a valid player count
crashes rather than returning a `DecodeConfigError`), while a non-empty
placement list always makes the seed indexing succeed. -/
theorem C10_empty_placement_crashes :
    (∀ ms : Nat × Nat, traverse_tiles ms [] = .fault) ∧
    (∀ (config : MapConfig) (pc : Nat), 2 ≤ pc → pc ≤ 4 →
      config.tile_placement = [] → decode_config config pc = none) ∧
    (∀ tp : List (Nat × Nat), tp ≠ [] → tp[0]?.isSome) := by
  refine ⟨traverse_tiles_nil, ?_, ?_⟩
  · intro config pc h1 h2 h3
    unfold decode_config
    rw [if_neg (by omega), h3, traverse_tiles_nil]
  · intro tp h
    cases tp with
    | nil => exact absurd rfl h
    | cons p rest => simp

/-- Witness for C10 at concrete inputs. -/
theorem C10_empty_placement_crashes_witness :
    traverse_tiles (3, 3) [] = .fault ∧
    decode_config ⟨(3, 3), [], []⟩ 2 = none ∧
    ([((1 : Nat), (1 : Nat))][0]?).isSome := by
  exact ⟨C10_empty_placement_crashes.1 (3, 3),
    C10_empty_placement_crashes.2.1 ⟨(3, 3), [], []⟩ 2 (by omega) (by omega) rfl,
    C10_empty_placement_crashes.2.2 [(1, 1)] (by simp)⟩

/-! ## C6 -/

/-- Reflexivity of table extension. -/
theorem tableExtends_refl (acc : List (ArrayVec Nat 3)) : TableExtends acc acc :=
  fun _ av h => ⟨av, h, fun _ hx => hx⟩

/-- Transitivity of table extension. -/
theorem tableExtends_trans {t1 t2 t3 : List (ArrayVec Nat 3)}
    (h12 : TableExtends t1 t2) (h23 : TableExtends t2 t3) : TableExtends t1 t3 := by
  intro i av h
  obtain ⟨av', h', hsub'⟩ := h12 i av h
  obtain ⟨av'', h'', hsub''⟩ := h23 i av' h'
  exact ⟨av'', h'', fun x hx => hsub'' x (hsub' x hx)⟩

/-- Replacing one collection by a superset extends the table. -/
theorem tableExtends_set {acc : List (ArrayVec Nat 3)} {i : Nat} {av av' : ArrayVec Nat 3}
    (h : acc[i]? = some av) (hdata : ∀ x ∈ av.data, x ∈ av'.data) :
    TableExtends acc (acc.set i av') := by
  intro j avj hj
  by_cases hij : i = j
  · subst hij
    rw [h] at hj
    injection hj with hj
    subst hj
    have hi : i < acc.length := by
      by_contra hc
      rw [List.getElem?_eq_none (by omega)] at h
      cases h
    exact ⟨av', List.getElem?_set_eq_of_lt _ hi, hdata⟩
  · exact ⟨avj, by rw [List.getElem?_set_ne hij]; exact hj, fun _ hx => hx⟩

/-- Invariant of the inversion loop: a successful run preserves the table's
length, only extends each collection, and records every processed road in
both of its endpoints' collections (road IDs offset by the running index). -/
theorem invert_fold_spec (l : List (Nat × Nat)) :
    ∀ road0 acc res, invert_fold l road0 acc = some res →
      res.length = acc.length ∧ TableExtends acc res ∧
      ∀ (k a b : Nat), l[k]? = some (a, b) →
        ∃ la lb, res[a]? = some la ∧ res[b]? = some lb ∧
          (road0 + k) ∈ la.data ∧ (road0 + k) ∈ lb.data := by
  induction l with
  | nil =>
    intro road0 acc res h
    simp only [invert_fold] at h
    cases h
    refine ⟨rfl, tableExtends_refl _, ?_⟩
    intro k a b hk
    simp at hk
  | cons hd rest ih =>
    obtain ⟨a, b⟩ := hd
    intro road0 acc res h
    simp only [invert_fold] at h
    cases ha : acc[a]? with
    | none => simp [ha] at h
    | some ava =>
      simp only [ha] at h
      cases hpa : ava.push road0 with
      | none => simp [hpa] at h
      | some ava' =>
        simp only [hpa] at h
        cases hb : (acc.set a ava')[b]? with
        | none => simp [hb] at h
        | some avb =>
          simp only [hb] at h
          cases hpb : avb.push road0 with
          | none => simp [hpb] at h
          | some avb' =>
            simp only [hpb] at h
            obtain ⟨hlen, hext, hmem⟩ := ih (road0 + 1) _ res h
            have hdata_a : ava'.data = ava.data ++ [road0] := ArrayVec.push_data hpa
            have hdata_b : avb'.data = avb.data ++ [road0] := ArrayVec.push_data hpb
            have ha_lt : a < acc.length := by
              by_contra hc
              rw [List.getElem?_eq_none (by omega)] at ha
              cases ha
            have hb_lt : b < (acc.set a ava').length := by
              by_contra hc
              rw [List.getElem?_eq_none (by omega)] at hb
              cases hb
            have hext1 : TableExtends acc (acc.set a ava') :=
              tableExtends_set ha (by rw [hdata_a]; intro x hx; exact List.mem_append_left _ hx)
            have hext2 : TableExtends (acc.set a ava') ((acc.set a ava').set b avb') :=
              tableExtends_set hb (by rw [hdata_b]; intro x hx; exact List.mem_append_left _ hx)
            have hextacc : TableExtends acc res :=
              tableExtends_trans (tableExtends_trans hext1 hext2) hext
            refine ⟨by simp [hlen], hextacc, ?_⟩
            intro k c d hk
            have hgb : ((acc.set a ava').set b avb')[b]? = some avb' :=
              List.getElem?_set_eq_of_lt _ hb_lt
            have hmb : road0 ∈ avb'.data := by rw [hdata_b]; simp
            cases k with
            | zero =>
              simp only [List.getElem?_cons_zero, Option.some.injEq, Prod.mk.injEq] at hk
              obtain ⟨rfl, rfl⟩ := hk
              by_cases hba : b = a
              · subst hba
                obtain ⟨la, hla, hsub⟩ := hext _ _ hgb
                exact ⟨la, la, hla, hla, by simpa using hsub _ hmb, by simpa using hsub _ hmb⟩
              · have hga : ((acc.set a ava').set b avb')[a]? = some ava' := by
                  rw [List.getElem?_set_ne hba]
                  exact List.getElem?_set_eq_of_lt _ (by simpa using ha_lt)
                have hma : road0 ∈ ava'.data := by rw [hdata_a]; simp
                obtain ⟨la, hla, hsuba⟩ := hext _ _ hga
                obtain ⟨lb, hlb, hsubb⟩ := hext _ _ hgb
                exact ⟨la, lb, hla, hlb, by simpa using hsuba _ hma, by simpa using hsubb _ hmb⟩
            | succ k' =>
              have hk' : rest[k']? = some (c, d) := by simpa using hk
              obtain ⟨la, lb, hla, hlb, hma', hmb'⟩ := hmem k' c d hk'
              have harith : road0 + (k' + 1) = road0 + 1 + k' := by omega
              exact ⟨la, lb, hla, hlb, by rw [harith]; exact hma', by rw [harith]; exact hmb'⟩

/-- C6 counterexample: with settle_places_count = 1 and the road → endpoints
table [(0,0),(0,0)] (all endpoints strictly below the count), settle place 0
would receive four incident-road entries, the capacity-3 push asserts, and
`derive_settle_place_roads_relations` fails fatally instead of returning a
table. -/
theorem C6_counterexample :
    (0 : Nat) < 1 ∧
    derive_settle_place_roads_relations [(0, 0), (0, 0)] 1 = none := by
  exact ⟨by omega, rfl⟩

/-- C6 (amended): for every road → endpoints table whose endpoints are all
strictly below settle_places_count, if the inversion completes (returns a
table rather than failing the capacity-3 assertion), the table has length
settle_places_count and, for every road r with endpoints (a, b), both a's
and b's collections contain r. -/
theorem C6_inversion_membership (rsp : List (Nat × Nat)) (count : Nat)
    (table : List (ArrayVec Nat 3))
    (_hend : ∀ p ∈ rsp, p.1 < count ∧ p.2 < count)
    (h : derive_settle_place_roads_relations rsp count = some table) :
    table.length = count ∧
    ∀ (r a b : Nat), rsp[r]? = some (a, b) →
      ∃ la lb, table[a]? = some la ∧ table[b]? = some lb ∧
        r ∈ la.data ∧ r ∈ lb.data := by
  obtain ⟨hlen, -, hmem⟩ := invert_fold_spec rsp 0 _ table h
  refine ⟨by simpa using hlen, ?_⟩
  intro r a b hr
  obtain ⟨la, lb, hla, hlb, hma, hmb⟩ := hmem r a b hr
  exact ⟨la, lb, hla, hlb, by simpa using hma, by simpa using hmb⟩

/-- Witness for C6 at a concrete input: one road between settle places 0
and 1, with count 2. -/
theorem C6_inversion_membership_witness :
    derive_settle_place_roads_relations [(0, 1)] 2 = some c6Table ∧
    (c6Table.length = 2 ∧
      ∀ (r a b : Nat), ([((0 : Nat), (1 : Nat))])[r]? = some (a, b) →
        ∃ la lb, c6Table[a]? = some la ∧ c6Table[b]? = some lb ∧
          r ∈ la.data ∧ r ∈ lb.data) := by
  exact ⟨rfl, C6_inversion_membership [(0, 1)] 2 c6Table (by simp) rfl⟩

/-! ## C5 -/

/-- A vertex's ID is either copied from a processed neighbor (counter
unchanged) or freshly minted (the counter's value, counter incremented). -/
theorem vertex_id_spec {ns : HexSide → VisitStatus} {tsp : List VertexMap} {count : Nat}
    {v : HexVertex} {id count' : Nat}
    (h : vertex_id ns tsp count v = some (id, count')) :
    count' = count ∨ (id = count ∧ count' = count + 1) := by
  simp only [vertex_id] at h
  cases hns : ns (settle_places_lookup v).1.1 with
  | Processed nid =>
    simp only [hns] at h
    cases hg : tsp[nid]? with
    | none => simp [hg] at h
    | some mp =>
      simp only [hg, Option.map_some', Option.some.injEq, Prod.mk.injEq] at h
      left
      omega
  | NotVisited nid pos =>
    simp only [hns] at h
    cases hns2 : ns (settle_places_lookup v).2.1 with
    | Processed nid2 =>
      simp only [hns2] at h
      cases hg : tsp[nid2]? with
      | none => simp [hg] at h
      | some mp =>
        simp only [hg, Option.map_some', Option.some.injEq, Prod.mk.injEq] at h
        left
        omega
    | NotVisited nid2 pos2 =>
      simp only [hns2, Option.some.injEq, Prod.mk.injEq] at h
      right
      omega
    | NotATile =>
      simp only [hns2, Option.some.injEq, Prod.mk.injEq] at h
      right
      omega
  | NotATile =>
    simp only [hns] at h
    cases hns2 : ns (settle_places_lookup v).2.1 with
    | Processed nid2 =>
      simp only [hns2] at h
      cases hg : tsp[nid2]? with
      | none => simp [hg] at h
      | some mp =>
        simp only [hg, Option.map_some', Option.some.injEq, Prod.mk.injEq] at h
        left
        omega
    | NotVisited nid2 pos2 =>
      simp only [hns2, Option.some.injEq, Prod.mk.injEq] at h
      right
      omega
    | NotATile =>
      simp only [hns2, Option.some.injEq, Prod.mk.injEq] at h
      right
      omega

/-- The vertex-table fold only grows the counter, and every ID minted
during it appears in the produced vertex table. -/
theorem settle_fold_spec {ns : HexSide → VisitStatus} {tsp : List VertexMap} :
    ∀ (vs : List HexVertex) (c : Nat) (l : VertexMap) (c' : Nat),
      settle_fold ns tsp vs c = some (l, c') →
      c ≤ c' ∧ ∀ id, c ≤ id → id < c' → ∃ v, (v, id) ∈ l := by
  intro vs
  induction vs with
  | nil =>
    intro c l c' h
    simp only [settle_fold, Option.some.injEq, Prod.mk.injEq] at h
    obtain ⟨rfl, rfl⟩ := h
    exact ⟨Nat.le_refl c, fun id h1 h2 => absurd h2 (by omega)⟩
  | cons v vs ih =>
    intro c l c' h
    simp only [settle_fold] at h
    cases hv : vertex_id ns tsp c v with
    | none => simp [hv] at h
    | some p =>
      obtain ⟨id0, c1⟩ := p
      simp only [hv] at h
      cases hs : settle_fold ns tsp vs c1 with
      | none => simp [hs] at h
      | some q =>
        obtain ⟨rest, c2⟩ := q
        simp only [hs, Option.some.injEq, Prod.mk.injEq] at h
        obtain ⟨rfl, rfl⟩ := h
        obtain ⟨hle, hcov⟩ := ih c1 rest c2 hs
        rcases vertex_id_spec hv with h1 | ⟨h1, h2⟩
        · subst h1
          refine ⟨hle, ?_⟩
          intro id ha hb
          obtain ⟨v', hv'⟩ := hcov id ha hb
          exact ⟨v', List.mem_cons_of_mem _ hv'⟩
        · subst h1 h2
          refine ⟨by omega, ?_⟩
          intro id ha hb
          by_cases hid : id = id0
          · subst hid
            exact ⟨v, List.mem_cons_self _ _⟩
          · obtain ⟨v', hv'⟩ := hcov id (by omega) hb
            exact ⟨v', List.mem_cons_of_mem _ hv'⟩

/-- A side's road ID is either copied from a processed neighbor (the road
table unchanged) or freshly pushed (ID = current table length). -/
theorem road_id_spec {ns : HexSide → VisitStatus} {troads : List SideMap} {sp : VertexMap}
    {rsp : List (Nat × Nat)} {s : HexSide} {rid : Nat} {rsp' : List (Nat × Nat)}
    (h : road_id ns troads sp rsp s = some (rid, rsp')) :
    rsp' = rsp ∨ (rid = rsp.length ∧ rsp'.length = rsp.length + 1) := by
  simp only [road_id] at h
  cases hns : ns s with
  | Processed nid =>
    simp only [hns] at h
    cases hg : troads[nid]? with
    | none => simp [hg] at h
    | some mp =>
      simp only [hg, Option.map_some', Option.some.injEq, Prod.mk.injEq] at h
      left
      exact h.2.symm
  | NotVisited nid pos =>
    simp only [hns, Option.some.injEq, Prod.mk.injEq] at h
    right
    refine ⟨h.1.symm, ?_⟩
    rw [← h.2]
    simp
  | NotATile =>
    simp only [hns, Option.some.injEq, Prod.mk.injEq] at h
    right
    refine ⟨h.1.symm, ?_⟩
    rw [← h.2]
    simp

/-- The side-table fold only grows the road table, and every road ID pushed
during it appears in the produced side table. -/
theorem road_fold_spec {ns : HexSide → VisitStatus} {troads : List SideMap} {sp : VertexMap} :
    ∀ (ss : List HexSide) (rsp : List (Nat × Nat)) (l : SideMap) (rsp' : List (Nat × Nat)),
      road_fold ns troads sp ss rsp = some (l, rsp') →
      rsp.length ≤ rsp'.length ∧
      ∀ rid, rsp.length ≤ rid → rid < rsp'.length → ∃ s, (s, rid) ∈ l := by
  intro ss
  induction ss with
  | nil =>
    intro rsp l rsp' h
    simp only [road_fold, Option.some.injEq, Prod.mk.injEq] at h
    obtain ⟨rfl, rfl⟩ := h
    exact ⟨Nat.le_refl _, fun rid h1 h2 => absurd h2 (by omega)⟩
  | cons s ss ih =>
    intro rsp l rsp' h
    simp only [road_fold] at h
    cases hv : road_id ns troads sp rsp s with
    | none => simp [hv] at h
    | some p =>
      obtain ⟨rid0, rsp1⟩ := p
      simp only [hv] at h
      cases hs : road_fold ns troads sp ss rsp1 with
      | none => simp [hs] at h
      | some q =>
        obtain ⟨rest, rsp2⟩ := q
        simp only [hs, Option.some.injEq, Prod.mk.injEq] at h
        obtain ⟨rfl, rfl⟩ := h
        obtain ⟨hle, hcov⟩ := ih rsp1 rest rsp2 hs
        rcases road_id_spec hv with h1 | ⟨h1, h2⟩
        · subst h1
          refine ⟨hle, ?_⟩
          intro rid ha hb
          obtain ⟨s', hs'⟩ := hcov rid ha hb
          exact ⟨s', List.mem_cons_of_mem _ hs'⟩
        · subst h1
          refine ⟨by omega, ?_⟩
          intro rid ha hb
          by_cases hid : rid = rsp.length
          · subst hid
            exact ⟨s, List.mem_cons_self _ _⟩
          · obtain ⟨s', hs'⟩ := hcov rid (by omega) hb
            exact ⟨s', List.mem_cons_of_mem _ hs'⟩

/-- The BFS loop preserves density of both ID spaces: if every already
minted ID appears in the tables on entry, the same holds of the final
result. -/
theorem traverse_loop_spec (m : Matrix) :
    ∀ (fuel : Nat) (queue : List (Nat × (Nat × Nat))) (processed : List Nat) (count : Nat)
      (tsp : List VertexMap) (troads : List SideMap) (rsp : List (Nat × Nat))
      (r : TileTraversalResult),
      traverse_loop m fuel queue processed count tsp troads rsp = .ok r →
      SPInv tsp count → RInv troads rsp →
      SPInv r.tile_settle_places r.settle_places_count ∧
      RInv r.tile_roads r.road_settle_places := by
  intro fuel
  induction fuel with
  | zero =>
    intro queue processed count tsp troads rsp r h _ _
    simp only [traverse_loop] at h
    exact absurd h (by simp)
  | succ fuel ih =>
    intro queue processed count tsp troads rsp r h hsp hr
    cases queue with
    | nil =>
      simp only [traverse_loop] at h
      cases h
      exact ⟨hsp, hr⟩
    | cons hd rest =>
      obtain ⟨tid, pos⟩ := hd
      simp only [traverse_loop] at h
      by_cases hc : processed.contains tid
      · rw [if_pos hc] at h
        exact ih rest processed count tsp troads rsp r h hsp hr
      · rw [if_neg hc] at h
        cases hn : neighbor_status m (tid :: processed) pos with
        | none => simp [hn] at h
        | some ns =>
          simp only [hn] at h
          cases hsf : settle_fold ns tsp HexVertex.all count with
          | none => simp [hsf] at h
          | some p =>
            obtain ⟨spMap, count'⟩ := p
            simp only [hsf] at h
            cases hrf : road_fold ns troads spMap HexSide.all rsp with
            | none => simp [hrf] at h
            | some q =>
              obtain ⟨roadMap, rsp'⟩ := q
              simp only [hrf] at h
              refine ih _ _ _ _ _ _ _ h ?_ ?_
              · obtain ⟨hle, hcov⟩ := settle_fold_spec HexVertex.all count spMap count' hsf
                intro id hid
                by_cases hlt : id < count
                · obtain ⟨mp, hmp, v, hv⟩ := hsp id hlt
                  exact ⟨mp, List.mem_append_left _ hmp, v, hv⟩
                · obtain ⟨v, hv⟩ := hcov id (by omega) hid
                  exact ⟨spMap, List.mem_append_right _ (by simp), v, hv⟩
              · obtain ⟨hle, hcov⟩ := road_fold_spec HexSide.all rsp roadMap rsp' hrf
                intro rid hrid
                by_cases hlt : rid < rsp.length
                · obtain ⟨mp, hmp, s, hs⟩ := hr rid hlt
                  exact ⟨mp, List.mem_append_left _ hmp, s, hs⟩
                · obtain ⟨s, hs⟩ := hcov rid (by omega) hrid
                  exact ⟨roadMap, List.mem_append_right _ (by simp), s, hs⟩

/-- C5 counterexample: on the three-tile scenario the construction reports
13 settle places, and SettlePlaceID 2 appears as a value in tile 0's
vertex table (at NorthEast) and again in tile 1's vertex table (at
NorthWest) — an ID does not appear exactly once across the tile vertex
tables, because a shared corner's single ID is recorded by every owning
tile. -/
theorem C5_id_appears_in_two_tiles :
    ((traverse_tiles (4, 4) [(1, 1), (2, 1), (2, 2)]).ok?.map fun r =>
      (r.settle_places_count,
       vlookup (r.tile_settle_places.getD 0 []) .NorthEast,
       vlookup (r.tile_settle_places.getD 1 []) .NorthWest)) = some (13, 2, 2) := by
  rfl

/-- C5 (amended): for every input on which the traversal completes, the ID
spaces are dense with no gaps and no unused IDs — every settle-place ID
below the reported count appears (at least once) as a value in some tile's
vertex table, and every road ID below the road-table length appears in
some tile's side table. -/
theorem C5_no_gaps (ms : Nat × Nat) (tp : List (Nat × Nat)) (r : TileTraversalResult)
    (h : traverse_tiles ms tp = .ok r) :
    SPInv r.tile_settle_places r.settle_places_count ∧
    RInv r.tile_roads r.road_settle_places := by
  simp only [traverse_tiles] at h
  cases h0 : tp[0]? with
  | none => simp [h0] at h
  | some pos0 =>
    simp only [h0] at h
    cases hd : derive_2d_map ms tp with
    | none => simp [hd] at h
    | some m =>
      simp only [hd] at h
      exact traverse_loop_spec m _ _ _ _ _ _ _ r h
        (fun id hid => absurd hid (by omega))
        (fun rid hrid => absurd hrid (by simp))

/-- Witness for C5 (amended) at the one-tile scenario. -/
theorem C5_no_gaps_witness :
    traverse_tiles (3, 3) [(1, 1)] = .ok oneTileResult ∧
    (SPInv oneTileResult.tile_settle_places oneTileResult.settle_places_count ∧
     RInv oneTileResult.tile_roads oneTileResult.road_settle_places) := by
  exact ⟨rfl, C5_no_gaps (3, 3) [(1, 1)] oneTileResult rfl⟩

end Catan
